import Mathlib

/-!
Shallow embedding of the `Core` mining-ticket contract
(src/express-server/src/index.ts, Solidity part, lines 385-1089).

Machine integers (`uint256`) are modelled as `Nat`; all arithmetic the
embedded operations perform is far below `2^256` in every state the
operations themselves allow (guards bound `totalMinted` by `MINING_POOL`
and elapsed times by `MACHINE_LIFETIME` before any multiplication), and
Solidity 0.8 checked arithmetic would revert rather than wrap, so `Nat`
is faithful on the reachable inputs.  Reverting calls are modelled as
`Option`-returning functions: `none` is a revert, which in Solidity
rolls back every intermediate write, so the caller keeps the pre-state.
-/

namespace CoreMining

/-- uint256 public constant TICKET_PRICE = 5 * 10**6 -/
def TICKET_PRICE : Nat := 5 * 10 ^ 6

/-- uint256 public constant MAX_TICKETS_PER_ADDRESS = 5 -/
def MAX_TICKETS_PER_ADDRESS : Nat := 5

/-- uint256 public constant MACHINE_LIFETIME = 6 hours (seconds) -/
def MACHINE_LIFETIME : Nat := 6 * 3600

/-- uint256 public constant CLAIM_GRACE_PERIOD = 24 hours (seconds) -/
def CLAIM_GRACE_PERIOD : Nat := 24 * 3600

/-- uint256 public constant TOTAL_CLAIM_WINDOW = 30 hours (seconds) -/
def TOTAL_CLAIM_WINDOW : Nat := 30 * 3600

/-- uint256 public constant STAGE_SIZE = 10_000_000_000 * 10**18 -/
def STAGE_SIZE : Nat := 10000000000 * 10 ^ 18

/-- uint256 public constant MINING_POOL = 60_000_000_000 * 10**18 -/
def MINING_POOL : Nat := 60000000000 * 10 ^ 18

/-- uint256 public constant LP_ALLOCATION = 40_000_000_000 * 10**18 -/
def LP_ALLOCATION : Nat := 40000000000 * 10 ^ 18

/-- uint256 public constant INITIAL_OUTPUT = 300_000 * 10**18 -/
def INITIAL_OUTPUT : Nat := 300000 * 10 ^ 18

/-- uint256 public constant PERCENTAGE_BASE = 10000 -/
def PERCENTAGE_BASE : Nat := 10000

/-- Hard limit in updateEmissionCap: 1_000_000_000_000 * 10**18 -/
def EMISSION_HARD_LIMIT : Nat := 1000000000000 * 10 ^ 18

/-- Initial value of the emissionCap storage slot: 100_000_000_000 * 10**18 -/
def INITIAL_EMISSION_CAP : Nat := 100000000000 * 10 ^ 18

/-- Ethereum addresses, abstracted to naturals; 0 is address(0). -/
abbrev Addr := Nat

/-- struct Machine: ticketId, purchasedAt, expiresAt, output, claimed. -/
structure Machine where
  ticketId : Nat
  purchasedAt : Nat
  expiresAt : Nat
  output : Nat
  claimed : Bool
deriving DecidableEq, Repr

/-- Contract storage: totalMinted, ticketsSold, userMachines mapping,
nextTicketId, emissionCap. -/
structure CoreState where
  totalMinted : Nat
  ticketsSold : Nat
  userMachines : Addr → List Machine
  nextTicketId : Nat
  emissionCap : Nat

/-- Storage right after the constructor runs. -/
def initialState : CoreState :=
  { totalMinted := 0
    ticketsSold := 0
    userMachines := fun _ => []
    nextTicketId := 1
    emissionCap := INITIAL_EMISSION_CAP }

/-- getCurrentStage(): stage = totalMinted / STAGE_SIZE, capped at 5. -/
def getCurrentStage (totalMinted : Nat) : Nat :=
  if 6 ≤ totalMinted / STAGE_SIZE then 5 else totalMinted / STAGE_SIZE

/-- The loop body of calculateStageOutput: halve `output` `n` times. -/
def halveLoop (output : Nat) : Nat → Nat
  | 0 => output
  | n + 1 => halveLoop (output / 2) n

/-- calculateStageOutput(stage): 0 for stage >= 6, else INITIAL_OUTPUT
halved once per stage. -/
def calculateStageOutput (stage : Nat) : Nat :=
  if 6 ≤ stage then 0 else halveLoop INITIAL_OUTPUT stage

/-- The per-machine activity test inside getActiveTicketCount:
not claimed and current time within the 30h claim window. -/
def isActiveAt (now : Nat) (m : Machine) : Bool :=
  !m.claimed && decide (now ≤ m.purchasedAt + TOTAL_CLAIM_WINDOW)

/-- getActiveTicketCount(user): count of active machines of `user`. -/
def getActiveTicketCount (st : CoreState) (user : Addr) (now : Nat) : Nat :=
  (st.userMachines user).countP (isActiveAt now)

/-- The machine-selection test of the claim loops:
machines[j].ticketId == ticketId && !machines[j].claimed. -/
abbrev ticketMatches (tid : Nat) (m : Machine) : Prop :=
  m.ticketId = tid ∧ m.claimed = false

/-- The per-ticket payout expression of claim/claimFor: full output once
MACHINE_LIFETIME has elapsed, otherwise output scaled by the floored
basis-point ratio elapsed * PERCENTAGE_BASE / MACHINE_LIFETIME. -/
def claimPayout (now : Nat) (m : Machine) : Nat :=
  if MACHINE_LIFETIME ≤ now - m.purchasedAt then m.output
  else m.output * ((now - m.purchasedAt) * PERCENTAGE_BASE / MACHINE_LIFETIME) / PERCENTAGE_BASE

/-- The inner machine-search loop of claim/claimFor for one ticket id:
find the first unclaimed machine with that id, check the claim window
(revert outside it), flip its claimed flag and return its payout;
revert (`none`) if no machine matches. -/
def claimOne (now tid : Nat) : List Machine → Option (List Machine × Nat)
  | [] => none
  | m :: rest =>
    if ticketMatches tid m then
      if now < m.purchasedAt then none
      else if m.purchasedAt + TOTAL_CLAIM_WINDOW < now then none
      else some ({ m with claimed := true } :: rest, claimPayout now m)
    else
      match claimOne now tid rest with
      | none => none
      | some (rest', out) => some (m :: rest', out)

/-- The outer loop of claim/claimFor: process the ticket ids in order,
accumulating totalRewards; any per-ticket failure reverts the call. -/
def claimLoop (now : Nat) : List Nat → List Machine → Nat → Option (List Machine × Nat)
  | [], ms, acc => some (ms, acc)
  | tid :: tids, ms, acc =>
    match claimOne now tid ms with
    | none => none
    | some (ms', out) => claimLoop now tids ms' (acc + out)

/-- Shared body of claim and claimFor (the two Solidity functions are
textually identical up to the ledger owner / mint target): run the
batch loop on `user`'s machines, require a nonzero total, require the
pool cap, then commit the flags and add to totalMinted. -/
def claimCore (st : CoreState) (user : Addr) (ticketIds : List Nat) (now : Nat) :
    Option (CoreState × Nat) :=
  match claimLoop now ticketIds (st.userMachines user) 0 with
  | none => none
  | some (ms', totalRewards) =>
    if totalRewards = 0 then none
    else if MINING_POOL < st.totalMinted + totalRewards then none
    else some
      ({ st with
          totalMinted := st.totalMinted + totalRewards
          userMachines := Function.update st.userMachines user ms' },
        totalRewards)

/-- claim(ticketIds): batch claim for the caller's own machines. -/
def claim (st : CoreState) (sender : Addr) (ticketIds : List Nat) (now : Nat) :
    Option (CoreState × Nat) :=
  claimCore st sender ticketIds now

/-- claimFor(user, ticketIds): same logic against `user`'s ledger,
with the extra address(0) guard. -/
def claimFor (st : CoreState) (user : Addr) (ticketIds : List Nat) (now : Nat) :
    Option (CoreState × Nat) :=
  if user = 0 then none else claimCore st user ticketIds now

/-- The claimableNow computation of getUserMachines: the claim formula
evaluated read-only, 0 for claimed machines and outside the window. -/
def claimableNow (now : Nat) (m : Machine) : Nat :=
  if m.claimed = false ∧ m.purchasedAt ≤ now ∧ now ≤ m.purchasedAt + TOTAL_CLAIM_WINDOW then
    if MACHINE_LIFETIME ≤ now - m.purchasedAt then m.output
    else m.output * ((now - m.purchasedAt) * PERCENTAGE_BASE / MACHINE_LIFETIME) / PERCENTAGE_BASE
  else 0

/-- getUserMachines(user): the six parallel read-only arrays
(ticketIds, purchasedAts, expiresAts, outputs, claimeds, claimableNow). -/
def getUserMachines (st : CoreState) (user : Addr) (now : Nat) :
    List Nat × List Nat × List Nat × List Nat × List Bool × List Nat :=
  ((st.userMachines user).map Machine.ticketId,
   (st.userMachines user).map Machine.purchasedAt,
   (st.userMachines user).map Machine.expiresAt,
   (st.userMachines user).map Machine.output,
   (st.userMachines user).map Machine.claimed,
   (st.userMachines user).map (claimableNow now))

/-- The machine-creation loop shared by the three purchase functions:
`count` fresh machines with consecutive ids from `startId`. -/
def mkMachines (startId purchaseTime expiryTime output : Nat) : Nat → List Machine
  | 0 => []
  | n + 1 =>
    { ticketId := startId
      purchasedAt := purchaseTime
      expiresAt := expiryTime
      output := output
      claimed := false } :: mkMachines (startId + 1) purchaseTime expiryTime output n

/-- The committed effects shared by the three purchase functions: the
stage output is computed once from the pre-state, `count` machines are
appended to `user`'s ledger, and the global counters advance. -/
def issueEffects (st : CoreState) (user : Addr) (count now : Nat) : CoreState :=
  { st with
      userMachines := Function.update st.userMachines user
        (st.userMachines user ++
          mkMachines st.nextTicketId now (now + MACHINE_LIFETIME)
            (calculateStageOutput (getCurrentStage st.totalMinted)) count)
      nextTicketId := st.nextTicketId + count
      ticketsSold := st.ticketsSold + count }

/-- buyTickets(count): guards in source order (count > 0, pool not
depleted, caller's active-ticket cap); the USDC transferFrom is the
external payment collaborator, assumed settled. -/
def buyTickets (st : CoreState) (sender : Addr) (count now : Nat) : Option CoreState :=
  if count = 0 then none
  else if MINING_POOL ≤ st.totalMinted then none
  else if MAX_TICKETS_PER_ADDRESS < getActiveTicketCount st sender now + count then none
  else some (issueEffects st sender count now)

/-- buyTicketsFor(user, count): delegated purchase; the beneficiary's
cap is checked, not the caller's. -/
def buyTicketsFor (st : CoreState) (user : Addr) (count now : Nat) : Option CoreState :=
  if user = 0 then none
  else if count = 0 then none
  else if MINING_POOL ≤ st.totalMinted then none
  else if MAX_TICKETS_PER_ADDRESS < getActiveTicketCount st user now + count then none
  else some (issueEffects st user count now)

/-- buyTicketsWithAuthorization(user, count, from, value, ...): the
contract's own guards; signature, nonce and validity-window checks live
in the external USDC contract (transferWithAuthorization), assumed to
succeed. -/
def buyTicketsWithAuthorization (st : CoreState) (user : Addr) (count : Nat)
    (fromAddr : Addr) (value now : Nat) : Option CoreState :=
  if user = 0 then none
  else if user ≠ fromAddr then none
  else if count = 0 then none
  else if MINING_POOL ≤ st.totalMinted then none
  else if MAX_TICKETS_PER_ADDRESS < getActiveTicketCount st user now + count then none
  else if value ≠ TICKET_PRICE * count then none
  else some (issueEffects st user count now)

/-- updateEmissionCap(newCap): owner-only admin update with the two
range guards; touches only the emissionCap slot. -/
def updateEmissionCap (st : CoreState) (newCap : Nat) : Option CoreState :=
  if newCap < st.totalMinted then none
  else if EMISSION_HARD_LIMIT < newCap then none
  else some { st with emissionCap := newCap }

/-- One external mutating call against the contract. -/
inductive Op where
  | buy (sender : Addr) (count now : Nat)
  | buyFor (user : Addr) (count now : Nat)
  | buyWithAuth (user : Addr) (count : Nat) (fromAddr : Addr) (value now : Nat)
  | doClaim (sender : Addr) (ids : List Nat) (now : Nat)
  | doClaimFor (user : Addr) (ids : List Nat) (now : Nat)
  | setCap (newCap : Nat)

/-- Execute one call; a reverting call leaves the state unchanged. -/
def applyOp (st : CoreState) : Op → CoreState
  | .buy s c n => (buyTickets st s c n).getD st
  | .buyFor u c n => (buyTicketsFor st u c n).getD st
  | .buyWithAuth u c f v n => (buyTicketsWithAuthorization st u c f v n).getD st
  | .doClaim s ids n => ((claim st s ids n).map Prod.fst).getD st
  | .doClaimFor u ids n => ((claimFor st u ids n).map Prod.fst).getD st
  | .setCap c => (updateEmissionCap st c).getD st

/-- Execute a sequence of calls from a starting state. -/
def execOps (st : CoreState) : List Op → CoreState
  | [] => st
  | op :: ops => execOps (applyOp st op) ops

/-- A machine used by the concrete witnesses: ticket 1, bought at time
0 in stage 0. -/
def mSample : Machine :=
  { ticketId := 1
    purchasedAt := 0
    expiresAt := MACHINE_LIFETIME
    output := INITIAL_OUTPUT
    claimed := false }

/-- A state used by the concrete witnesses: holder 7 owns mSample. -/
def stSample : CoreState :=
  { totalMinted := 0
    ticketsSold := 1
    userMachines := fun a => if a = 7 then [mSample] else []
    nextTicketId := 2
    emissionCap := INITIAL_EMISSION_CAP }

theorem halveLoop_div_two (n : Nat) : ∀ o : Nat, halveLoop (o / 2) n = halveLoop o n / 2 := by
  induction n with
  | zero => intro o; rfl
  | succ k ih =>
    intro o
    show halveLoop (o / 2 / 2) k = halveLoop (o / 2) k / 2
    exact ih (o / 2)

/-- Claim C6: the pure emission schedule.  getCurrentStage is floor
division by STAGE_SIZE clamped to 5 (hence 5 from 5*STAGE_SIZE on);
calculateStageOutput starts at INITIAL_OUTPUT, halves (with floor) at
each of the first five stage steps, and is 0 from stage 6 on. -/
theorem C6_emission_schedule :
    (∀ m : Nat, getCurrentStage m = min (m / STAGE_SIZE) 5)
    ∧ (∀ m : Nat, 5 * STAGE_SIZE ≤ m → getCurrentStage m = 5)
    ∧ calculateStageOutput 0 = INITIAL_OUTPUT
    ∧ (∀ s : Nat, s ≤ 4 → calculateStageOutput (s + 1) = calculateStageOutput s / 2)
    ∧ (∀ s : Nat, 6 ≤ s → calculateStageOutput s = 0) := by
  have hsize : 0 < STAGE_SIZE := by decide
  have hmin : ∀ m : Nat, getCurrentStage m = min (m / STAGE_SIZE) 5 := by
    intro m
    unfold getCurrentStage
    by_cases h : 6 ≤ m / STAGE_SIZE
    · rw [if_pos h]
      omega
    · rw [if_neg h]
      omega
  refine ⟨hmin, ?_, ?_, ?_, ?_⟩
  · intro m hm
    rw [hmin m]
    have : 5 ≤ m / STAGE_SIZE := (Nat.le_div_iff_mul_le hsize).mpr hm
    omega
  · rfl
  · intro s hs
    unfold calculateStageOutput
    rw [if_neg (by omega), if_neg (by omega)]
    show halveLoop (INITIAL_OUTPUT / 2) s = halveLoop INITIAL_OUTPUT s / 2
    exact halveLoop_div_two s INITIAL_OUTPUT
  · intro s hs
    unfold calculateStageOutput
    rw [if_pos hs]

theorem claimOne_eq_none_of_no_match (now tid : Nat) (ms : List Machine)
    (h : ∀ m ∈ ms, ¬ ticketMatches tid m) : claimOne now tid ms = none := by
  induction ms with
  | nil => rfl
  | cons m rest ih =>
    have hm : ¬ ticketMatches tid m := h m (List.mem_cons_self m rest)
    have hrest := ih fun x hx => h x (List.mem_cons_of_mem m hx)
    simp [claimOne, hm, hrest]

theorem claimOne_first_match (now tid : Nat) (pre : List Machine) (m : Machine)
    (rest : List Machine)
    (hpre : ∀ m' ∈ pre, ¬ ticketMatches tid m') (hm : ticketMatches tid m) :
    claimOne now tid (pre ++ m :: rest) =
      if now < m.purchasedAt then none
      else if m.purchasedAt + TOTAL_CLAIM_WINDOW < now then none
      else some (pre ++ { m with claimed := true } :: rest, claimPayout now m) := by
  induction pre with
  | nil =>
    simp only [List.nil_append, claimOne, if_pos hm]
  | cons p ps ih =>
    have hp : ¬ ticketMatches tid p := hpre p (List.mem_cons_self p ps)
    have hps : ∀ m' ∈ ps, ¬ ticketMatches tid m' :=
      fun x hx => hpre x (List.mem_cons_of_mem p hx)
    simp only [List.cons_append, claimOne, if_neg hp, List.append_eq]
    rw [ih hps]
    by_cases h1 : now < m.purchasedAt
    · simp [h1]
    · by_cases h2 : m.purchasedAt + TOTAL_CLAIM_WINDOW < now
      · simp [h1, h2]
      · simp [h1, h2]

theorem claimOne_some_shape (now tid : Nat) :
    ∀ (ms ms' : List Machine) (out : Nat),
    claimOne now tid ms = some (ms', out) →
    ∃ pre m rest,
      ms = pre ++ m :: rest ∧ ms' = pre ++ { m with claimed := true } :: rest
      ∧ ticketMatches tid m ∧ out = claimPayout now m := by
  intro ms
  induction ms with
  | nil => intro ms' out hsome; simp [claimOne] at hsome
  | cons m rest ih =>
    intro ms' out hsome
    by_cases hm : ticketMatches tid m
    · simp only [claimOne, if_pos hm] at hsome
      by_cases h1 : now < m.purchasedAt
      · rw [if_pos h1] at hsome; exact absurd hsome (by simp)
      · rw [if_neg h1] at hsome
        by_cases h2 : m.purchasedAt + TOTAL_CLAIM_WINDOW < now
        · rw [if_pos h2] at hsome; exact absurd hsome (by simp)
        · rw [if_neg h2, Option.some_inj] at hsome
          injection hsome with hl hr
          subst hl hr
          exact ⟨[], m, rest, by simp, by simp, hm, rfl⟩
    · simp only [claimOne, if_neg hm] at hsome
      cases hrec : claimOne now tid rest with
      | none => rw [hrec] at hsome; simp at hsome
      | some pr =>
        obtain ⟨rest', o⟩ := pr
        rw [hrec] at hsome
        simp only [Option.some_inj] at hsome
        injection hsome with hl hr
        subst hl hr
        obtain ⟨pre₀, m₀, rest₀, hsplit, hsplit', hm₀, ho⟩ := ih rest' o hrec
        exact ⟨m :: pre₀, m₀, rest₀, by simp [hsplit], by simp [hsplit'], hm₀, ho⟩

theorem claimOne_preserves_no_match (now tid tid' : Nat)
    (ms ms' : List Machine) (out : Nat)
    (hsome : claimOne now tid ms = some (ms', out))
    (h : ∀ m ∈ ms, ¬ ticketMatches tid' m) :
    ∀ m' ∈ ms', ¬ ticketMatches tid' m' := by
  obtain ⟨pre, m, rest, hms, hms', hm, _⟩ := claimOne_some_shape now tid ms ms' out hsome
  subst hms hms'
  intro m' hm'
  rcases List.mem_append.mp hm' with hl | hr
  · exact h m' (List.mem_append.mpr (Or.inl hl))
  · rcases List.mem_cons.mp hr with rfl | hrest
    · intro hmatch
      simp [ticketMatches] at hmatch
    · exact h m' (List.mem_append.mpr (Or.inr (List.mem_cons_of_mem m hrest)))

theorem claimOne_clears (now tid : Nat) (ms ms' : List Machine) (out : Nat)
    (hnd : (ms.map Machine.ticketId).Nodup)
    (hsome : claimOne now tid ms = some (ms', out)) :
    ∀ m' ∈ ms', ¬ ticketMatches tid m' := by
  obtain ⟨pre, m, rest, hms, hms', hm, _⟩ := claimOne_some_shape now tid ms ms' out hsome
  subst hms hms'
  have hnd' := List.nodup_append.mp (show (pre.map Machine.ticketId ++
      (m :: rest).map Machine.ticketId).Nodup by simpa using hnd)
  intro m' hm'
  rcases List.mem_append.mp hm' with hl | hr
  · intro hmatch
    have heq : m'.ticketId = m.ticketId := hmatch.1.trans hm.1.symm
    have h1 : m'.ticketId ∈ pre.map Machine.ticketId := List.mem_map_of_mem _ hl
    have h2 : m'.ticketId ∈ (m :: rest).map Machine.ticketId := by simp [heq]
    exact hnd'.2.2 h1 h2
  · rcases List.mem_cons.mp hr with rfl | hrest
    · intro hmatch
      simp [ticketMatches] at hmatch
    · intro hmatch
      have heq : m'.ticketId = m.ticketId := hmatch.1.trans hm.1.symm
      have hnd2 : (m.ticketId :: rest.map Machine.ticketId).Nodup := by
        simpa using hnd'.2.1
      have hnotin : m.ticketId ∉ rest.map Machine.ticketId := (List.nodup_cons.mp hnd2).1
      exact hnotin (heq ▸ List.mem_map_of_mem Machine.ticketId hrest)

theorem claimOne_map_ticketId (now tid : Nat) (ms ms' : List Machine) (out : Nat)
    (hsome : claimOne now tid ms = some (ms', out)) :
    ms'.map Machine.ticketId = ms.map Machine.ticketId := by
  obtain ⟨pre, m, rest, hms, hms', _, _⟩ := claimOne_some_shape now tid ms ms' out hsome
  subst hms hms'
  simp

theorem claimLoop_eq_none_of_bad (now : Nat) :
    ∀ (tids : List Nat) (ms : List Machine) (acc tid : Nat),
    tid ∈ tids → (∀ m ∈ ms, ¬ ticketMatches tid m) →
    claimLoop now tids ms acc = none := by
  intro tids
  induction tids with
  | nil => intro ms acc tid htid _; simp at htid
  | cons t ts ih =>
    intro ms acc tid htid hbad
    rcases List.mem_cons.mp htid with rfl | hmem
    · simp only [claimLoop, claimOne_eq_none_of_no_match now tid ms hbad]
    · cases hone : claimOne now t ms with
      | none => simp only [claimLoop, hone]
      | some pr =>
        obtain ⟨ms', o⟩ := pr
        simp only [claimLoop, hone]
        exact ih ms' (acc + o) tid hmem
          (claimOne_preserves_no_match now t tid ms ms' o hone hbad)

theorem claimLoop_preserves_no_match (now : Nat) :
    ∀ (tids : List Nat) (ms ms' : List Machine) (acc total tid : Nat),
    claimLoop now tids ms acc = some (ms', total) →
    (∀ m ∈ ms, ¬ ticketMatches tid m) →
    ∀ m' ∈ ms', ¬ ticketMatches tid m' := by
  intro tids
  induction tids with
  | nil =>
    intro ms ms' acc total tid hsome h
    simp only [claimLoop, Option.some_inj] at hsome
    injection hsome with hl _
    subst hl
    exact h
  | cons t ts ih =>
    intro ms ms' acc total tid hsome h
    cases hone : claimOne now t ms with
    | none =>
      simp only [claimLoop, hone] at hsome
      exact absurd hsome (by simp)
    | some pr =>
      obtain ⟨ms₁, o⟩ := pr
      simp only [claimLoop, hone] at hsome
      exact ih ms₁ ms' (acc + o) total tid hsome
        (claimOne_preserves_no_match now t tid ms ms₁ o hone h)

theorem claimLoop_clears (now : Nat) :
    ∀ (tids : List Nat) (ms ms' : List Machine) (acc total : Nat),
    (ms.map Machine.ticketId).Nodup →
    claimLoop now tids ms acc = some (ms', total) →
    ∀ tid ∈ tids, ∀ m' ∈ ms', ¬ ticketMatches tid m' := by
  intro tids
  induction tids with
  | nil => intro ms ms' acc total _ _ tid htid; simp at htid
  | cons t ts ih =>
    intro ms ms' acc total hnd hsome tid htid
    cases hone : claimOne now t ms with
    | none =>
      simp only [claimLoop, hone] at hsome
      exact absurd hsome (by simp)
    | some pr =>
      obtain ⟨ms₁, o⟩ := pr
      simp only [claimLoop, hone] at hsome
      have hnd₁ : (ms₁.map Machine.ticketId).Nodup := by
        rw [claimOne_map_ticketId now t ms ms₁ o hone]; exact hnd
      rcases List.mem_cons.mp htid with rfl | hmem
      · exact claimLoop_preserves_no_match now ts ms₁ ms' (acc + o) total tid hsome
          (claimOne_clears now tid ms ms₁ o hnd hone)
      · exact ih ms₁ ms' (acc + o) total hnd₁ hsome tid hmem

theorem claimCore_elim (st : CoreState) (u : Addr) (ids : List Nat) (now : Nat)
    (st' : CoreState) (r : Nat)
    (h : claimCore st u ids now = some (st', r)) :
    ∃ ms', claimLoop now ids (st.userMachines u) 0 = some (ms', r)
      ∧ r ≠ 0 ∧ st.totalMinted + r ≤ MINING_POOL
      ∧ st' = { st with
          totalMinted := st.totalMinted + r
          userMachines := Function.update st.userMachines u ms' } := by
  unfold claimCore at h
  cases hloop : claimLoop now ids (st.userMachines u) 0 with
  | none => rw [hloop] at h; exact absurd h (by simp)
  | some pr =>
    obtain ⟨ms₀, r₀⟩ := pr
    simp only [hloop] at h
    by_cases hz : r₀ = 0
    · rw [if_pos hz] at h; exact absurd h (by simp)
    · rw [if_neg hz] at h
      by_cases hp : MINING_POOL < st.totalMinted + r₀
      · rw [if_pos hp] at h; exact absurd h (by simp)
      · rw [if_neg hp, Option.some_inj] at h
        injection h with h1 h2
        subst h2
        exact ⟨ms₀, rfl, hz, Nat.le_of_not_lt hp, h1.symm⟩

theorem buyTickets_elim (st : CoreState) (s : Addr) (c n : Nat) (st' : CoreState)
    (h : buyTickets st s c n = some st') :
    c ≠ 0 ∧ st.totalMinted < MINING_POOL
    ∧ getActiveTicketCount st s n + c ≤ MAX_TICKETS_PER_ADDRESS
    ∧ st' = issueEffects st s c n := by
  unfold buyTickets at h
  by_cases h1 : c = 0
  · rw [if_pos h1] at h; exact absurd h (by simp)
  · rw [if_neg h1] at h
    by_cases h2 : MINING_POOL ≤ st.totalMinted
    · rw [if_pos h2] at h; exact absurd h (by simp)
    · rw [if_neg h2] at h
      by_cases h3 : MAX_TICKETS_PER_ADDRESS < getActiveTicketCount st s n + c
      · rw [if_pos h3] at h; exact absurd h (by simp)
      · rw [if_neg h3, Option.some_inj] at h
        exact ⟨h1, Nat.lt_of_not_le h2, Nat.le_of_not_lt h3, h.symm⟩

theorem buyTicketsFor_elim (st : CoreState) (u : Addr) (c n : Nat) (st' : CoreState)
    (h : buyTicketsFor st u c n = some st') :
    u ≠ 0 ∧ c ≠ 0 ∧ st.totalMinted < MINING_POOL
    ∧ getActiveTicketCount st u n + c ≤ MAX_TICKETS_PER_ADDRESS
    ∧ st' = issueEffects st u c n := by
  unfold buyTicketsFor at h
  by_cases h0 : u = 0
  · rw [if_pos h0] at h; exact absurd h (by simp)
  · rw [if_neg h0] at h
    by_cases h1 : c = 0
    · rw [if_pos h1] at h; exact absurd h (by simp)
    · rw [if_neg h1] at h
      by_cases h2 : MINING_POOL ≤ st.totalMinted
      · rw [if_pos h2] at h; exact absurd h (by simp)
      · rw [if_neg h2] at h
        by_cases h3 : MAX_TICKETS_PER_ADDRESS < getActiveTicketCount st u n + c
        · rw [if_pos h3] at h; exact absurd h (by simp)
        · rw [if_neg h3, Option.some_inj] at h
          exact ⟨h0, h1, Nat.lt_of_not_le h2, Nat.le_of_not_lt h3, h.symm⟩

theorem buyTicketsWithAuthorization_elim (st : CoreState) (u : Addr) (c : Nat)
    (f : Addr) (v n : Nat) (st' : CoreState)
    (h : buyTicketsWithAuthorization st u c f v n = some st') :
    u ≠ 0 ∧ u = f ∧ c ≠ 0 ∧ st.totalMinted < MINING_POOL
    ∧ getActiveTicketCount st u n + c ≤ MAX_TICKETS_PER_ADDRESS
    ∧ v = TICKET_PRICE * c
    ∧ st' = issueEffects st u c n := by
  unfold buyTicketsWithAuthorization at h
  by_cases h0 : u = 0
  · rw [if_pos h0] at h; exact absurd h (by simp)
  · rw [if_neg h0] at h
    by_cases hf : u ≠ f
    · rw [if_pos hf] at h; exact absurd h (by simp)
    · rw [if_neg hf] at h
      by_cases h1 : c = 0
      · rw [if_pos h1] at h; exact absurd h (by simp)
      · rw [if_neg h1] at h
        by_cases h2 : MINING_POOL ≤ st.totalMinted
        · rw [if_pos h2] at h; exact absurd h (by simp)
        · rw [if_neg h2] at h
          by_cases h3 : MAX_TICKETS_PER_ADDRESS < getActiveTicketCount st u n + c
          · rw [if_pos h3] at h; exact absurd h (by simp)
          · rw [if_neg h3] at h
            by_cases h4 : v ≠ TICKET_PRICE * c
            · rw [if_pos h4] at h; exact absurd h (by simp)
            · rw [if_neg h4, Option.some_inj] at h
              exact ⟨h0, Decidable.not_not.mp hf, h1, Nat.lt_of_not_le h2,
                Nat.le_of_not_lt h3, Decidable.not_not.mp h4, h.symm⟩

theorem updateEmissionCap_elim (st : CoreState) (c : Nat) (st' : CoreState)
    (h : updateEmissionCap st c = some st') :
    st.totalMinted ≤ c ∧ c ≤ EMISSION_HARD_LIMIT ∧ st' = { st with emissionCap := c } := by
  unfold updateEmissionCap at h
  by_cases h1 : c < st.totalMinted
  · rw [if_pos h1] at h; exact absurd h (by simp)
  · rw [if_neg h1] at h
    by_cases h2 : EMISSION_HARD_LIMIT < c
    · rw [if_pos h2] at h; exact absurd h (by simp)
    · rw [if_neg h2, Option.some_inj] at h
      exact ⟨Nat.le_of_not_lt h1, Nat.le_of_not_lt h2, h.symm⟩

theorem applyOp_pool (st : CoreState) (op : Op) (h : st.totalMinted ≤ MINING_POOL) :
    (applyOp st op).totalMinted ≤ MINING_POOL := by
  cases op with
  | buy s c n =>
    cases hb : buyTickets st s c n with
    | none => simpa [applyOp, hb] using h
    | some st2 =>
      simp only [applyOp, hb, Option.getD_some]
      rw [(buyTickets_elim st s c n st2 hb).2.2.2]
      exact h
  | buyFor u c n =>
    cases hb : buyTicketsFor st u c n with
    | none => simpa [applyOp, hb] using h
    | some st2 =>
      simp only [applyOp, hb, Option.getD_some]
      rw [(buyTicketsFor_elim st u c n st2 hb).2.2.2.2]
      exact h
  | buyWithAuth u c f v n =>
    cases hb : buyTicketsWithAuthorization st u c f v n with
    | none => simpa [applyOp, hb] using h
    | some st2 =>
      simp only [applyOp, hb, Option.getD_some]
      rw [(buyTicketsWithAuthorization_elim st u c f v n st2 hb).2.2.2.2.2.2]
      exact h
  | doClaim s ids n =>
    cases hc : claim st s ids n with
    | none => simpa [applyOp, hc] using h
    | some pr =>
      obtain ⟨st2, r⟩ := pr
      obtain ⟨ms', _, _, hpool, hst2⟩ := claimCore_elim st s ids n st2 r hc
      subst hst2
      simpa [applyOp, hc] using hpool
  | doClaimFor u ids n =>
    cases hc : claimFor st u ids n with
    | none => simpa [applyOp, hc] using h
    | some pr =>
      obtain ⟨st2, r⟩ := pr
      have hcc : claimCore st u ids n = some (st2, r) := by
        unfold claimFor at hc
        by_cases h0 : u = 0
        · rw [if_pos h0] at hc; exact absurd hc (by simp)
        · rwa [if_neg h0] at hc
      obtain ⟨ms', _, _, hpool, hst2⟩ := claimCore_elim st u ids n st2 r hcc
      subst hst2
      simpa [applyOp, hc] using hpool
  | setCap c =>
    cases hu : updateEmissionCap st c with
    | none => simpa [applyOp, hu] using h
    | some st2 =>
      have h3 := (updateEmissionCap_elim st c st2 hu).2.2
      subst h3
      simpa [applyOp, hu] using h

theorem execOps_pool (ops : List Op) :
    ∀ st : CoreState, st.totalMinted ≤ MINING_POOL →
    (execOps st ops).totalMinted ≤ MINING_POOL := by
  induction ops with
  | nil => intro st h; exact h
  | cons op ops ih => intro st h; exact ih (applyOp st op) (applyOp_pool st op h)

/-- Claim C2: starting from the deployed state, no sequence of
purchase, claim or emission-cap calls ever leaves totalMinted above
MINING_POOL; each claim batch requires headroom before committing and
no other operation increases totalMinted. -/
theorem C2_pool_cap_invariant (ops : List Op) :
    (execOps initialState ops).totalMinted ≤ MINING_POOL :=
  execOps_pool ops initialState (Nat.zero_le _)

theorem claimCore_eq_none_of_bad (st : CoreState) (u : Addr) (ids : List Nat)
    (now tid : Nat) (htid : tid ∈ ids)
    (hbad : ∀ m ∈ st.userMachines u, ¬ ticketMatches tid m) :
    claimCore st u ids now = none := by
  unfold claimCore
  rw [claimLoop_eq_none_of_bad now ids (st.userMachines u) 0 tid htid hbad]

theorem claim_single_eq (st : CoreState) (u : Addr) (pre : List Machine) (m : Machine)
    (rest : List Machine) (now : Nat)
    (hdec : st.userMachines u = pre ++ m :: rest)
    (hpre : ∀ m' ∈ pre, ¬ ticketMatches m.ticketId m')
    (hcl : m.claimed = false) :
    claim st u [m.ticketId] now =
      if now < m.purchasedAt then none
      else if m.purchasedAt + TOTAL_CLAIM_WINDOW < now then none
      else if claimPayout now m = 0 then none
      else if MINING_POOL < st.totalMinted + claimPayout now m then none
      else some
        ({ st with
            totalMinted := st.totalMinted + claimPayout now m
            userMachines := Function.update st.userMachines u
              (pre ++ { m with claimed := true } :: rest) },
          claimPayout now m) := by
  unfold claim claimCore
  rw [hdec]
  simp only [claimLoop, claimOne_first_match now m.ticketId pre m rest hpre ⟨rfl, hcl⟩]
  by_cases h1 : now < m.purchasedAt
  · simp [h1]
  · by_cases h2 : m.purchasedAt + TOTAL_CLAIM_WINDOW < now
    · simp [h1, h2]
    · simp only [if_neg h1, if_neg h2, claimLoop, Nat.zero_add]

/-- Claim C1, amended: for an unclaimed in-window ticket claimed before
maturity, the per-ticket payout of claim (and claimFor) is
output * floor(elapsed * PERCENTAGE_BASE / MACHINE_LIFETIME) / PERCENTAGE_BASE,
the basis-point-truncated ratio, not floor(output * elapsed / MACHINE_LIFETIME). -/
theorem C1_early_claim_payout (st : CoreState) (u : Addr) (pre : List Machine)
    (m : Machine) (rest : List Machine) (now : Nat)
    (hdec : st.userMachines u = pre ++ m :: rest)
    (hpre : ∀ m' ∈ pre, ¬ ticketMatches m.ticketId m')
    (hcl : m.claimed = false)
    (h1 : m.purchasedAt ≤ now)
    (h2 : now ≤ m.purchasedAt + TOTAL_CLAIM_WINDOW)
    (h3 : now - m.purchasedAt < MACHINE_LIFETIME)
    (hpos : 0 < m.output * ((now - m.purchasedAt) * PERCENTAGE_BASE / MACHINE_LIFETIME)
      / PERCENTAGE_BASE)
    (hpool : st.totalMinted + m.output * ((now - m.purchasedAt) * PERCENTAGE_BASE
      / MACHINE_LIFETIME) / PERCENTAGE_BASE ≤ MINING_POOL) :
    claim st u [m.ticketId] now = some
      ({ st with
          totalMinted := st.totalMinted + m.output * ((now - m.purchasedAt)
            * PERCENTAGE_BASE / MACHINE_LIFETIME) / PERCENTAGE_BASE
          userMachines := Function.update st.userMachines u
            (pre ++ { m with claimed := true } :: rest) },
        m.output * ((now - m.purchasedAt) * PERCENTAGE_BASE / MACHINE_LIFETIME)
          / PERCENTAGE_BASE)
    ∧ (u ≠ 0 → claimFor st u [m.ticketId] now = claim st u [m.ticketId] now) := by
  have hpay : claimPayout now m = m.output * ((now - m.purchasedAt) * PERCENTAGE_BASE
      / MACHINE_LIFETIME) / PERCENTAGE_BASE := by
    unfold claimPayout
    rw [if_neg (Nat.not_le.mpr h3)]
  constructor
  · rw [claim_single_eq st u pre m rest now hdec hpre hcl, hpay,
      if_neg (Nat.not_lt.mpr h1), if_neg (Nat.not_lt.mpr h2),
      if_neg (Nat.pos_iff_ne_zero.mp hpos), if_neg (Nat.not_lt.mpr hpool)]
  · intro h0
    unfold claimFor claim
    rw [if_neg h0]

/-- Counterexample to claim C1 as stated: for the sample ticket with
output INITIAL_OUTPUT claimed at elapsed = MACHINE_LIFETIME - 1, the
payout the code produces differs from
floor(output * elapsed / MACHINE_LIFETIME). -/
theorem C1_early_claim_payout_counterexample :
    (claim stSample 7 [1] 21599).map Prod.snd ≠
      some (mSample.output * (21599 - mSample.purchasedAt) / MACHINE_LIFETIME) := by
  decide

/-- Witness for C1 (amended) at a concrete input. -/
theorem C1_early_claim_payout_witness :
    claim stSample 7 [1] 21599 = some
      ({ stSample with
          totalMinted := stSample.totalMinted + mSample.output * ((21599 - mSample.purchasedAt)
            * PERCENTAGE_BASE / MACHINE_LIFETIME) / PERCENTAGE_BASE
          userMachines := Function.update stSample.userMachines 7
            ([] ++ { mSample with claimed := true } :: []) },
        mSample.output * ((21599 - mSample.purchasedAt) * PERCENTAGE_BASE
          / MACHINE_LIFETIME) / PERCENTAGE_BASE) :=
  (C1_early_claim_payout stSample 7 [] mSample [] 21599 rfl (by simp) rfl
    (by decide) (by decide) (by decide) (by decide) (by decide)).1

/-- Claim C5: an unclaimed ticket claimed anywhere in
[purchased_at + MACHINE_LIFETIME, purchased_at + TOTAL_CLAIM_WINDOW]
pays the full locked output; a claim strictly after the window, or
strictly before purchase, reverts the whole call. -/
theorem C5_claim_window_boundaries (st : CoreState) (u : Addr) (pre : List Machine)
    (m : Machine) (rest : List Machine) (now : Nat)
    (hdec : st.userMachines u = pre ++ m :: rest)
    (hpre : ∀ m' ∈ pre, ¬ ticketMatches m.ticketId m')
    (hcl : m.claimed = false) :
    (m.purchasedAt + MACHINE_LIFETIME ≤ now → now ≤ m.purchasedAt + TOTAL_CLAIM_WINDOW →
      0 < m.output → st.totalMinted + m.output ≤ MINING_POOL →
      claim st u [m.ticketId] now = some
        ({ st with
            totalMinted := st.totalMinted + m.output
            userMachines := Function.update st.userMachines u
              (pre ++ { m with claimed := true } :: rest) },
          m.output))
    ∧ (m.purchasedAt + TOTAL_CLAIM_WINDOW < now → claim st u [m.ticketId] now = none)
    ∧ (now < m.purchasedAt → claim st u [m.ticketId] now = none) := by
  refine ⟨?_, ?_, ?_⟩
  · intro hmat hwin hout hpool
    have hpay : claimPayout now m = m.output := by
      unfold claimPayout
      rw [if_pos (by omega)]
    rw [claim_single_eq st u pre m rest now hdec hpre hcl, hpay,
      if_neg (show ¬ now < m.purchasedAt by omega), if_neg (Nat.not_lt.mpr hwin),
      if_neg (by omega), if_neg (Nat.not_lt.mpr hpool)]
  · intro hlate
    rw [claim_single_eq st u pre m rest now hdec hpre hcl,
      if_neg (show ¬ now < m.purchasedAt by omega), if_pos hlate]
  · intro hearly
    rw [claim_single_eq st u pre m rest now hdec hpre hcl, if_pos hearly]

/-- Witness for C5 at concrete inputs: full payout at exactly
MACHINE_LIFETIME, revert one second past the window. -/
theorem C5_claim_window_boundaries_witness :
    claim stSample 7 [1] 21600 = some
      ({ stSample with
          totalMinted := stSample.totalMinted + mSample.output
          userMachines := Function.update stSample.userMachines 7
            ([] ++ { mSample with claimed := true } :: []) },
        mSample.output)
    ∧ claim stSample 7 [1] 108001 = none :=
  ⟨(C5_claim_window_boundaries stSample 7 [] mSample [] 21600 rfl (by simp) rfl).1
      (by decide) (by decide) (by decide) (by decide),
   (C5_claim_window_boundaries stSample 7 [] mSample [] 108001 rfl (by simp) rfl).2.1
      (by decide)⟩

/-- Claim C10: a batch of valid, unclaimed, in-window tickets still
reverts when every elapsed time is so small that the basis-point ratio
floors to 0, because the batch total is then 0. -/
theorem C10_zero_ratio_reverts (st : CoreState) (u : Addr) (pre : List Machine)
    (m : Machine) (rest : List Machine) (now : Nat)
    (hdec : st.userMachines u = pre ++ m :: rest)
    (hpre : ∀ m' ∈ pre, ¬ ticketMatches m.ticketId m')
    (hcl : m.claimed = false)
    (h1 : m.purchasedAt ≤ now)
    (h2 : now ≤ m.purchasedAt + TOTAL_CLAIM_WINDOW)
    (h3 : (now - m.purchasedAt) * PERCENTAGE_BASE < MACHINE_LIFETIME) :
    claim st u [m.ticketId] now = none := by
  have hPB : 1 ≤ PERCENTAGE_BASE := by decide
  have hle : (now - m.purchasedAt) * 1 ≤ (now - m.purchasedAt) * PERCENTAGE_BASE :=
    Nat.mul_le_mul (Nat.le_refl _) hPB
  rw [Nat.mul_one] at hle
  have helapsed : now - m.purchasedAt < MACHINE_LIFETIME := by omega
  have hpay : claimPayout now m = 0 := by
    unfold claimPayout
    rw [if_neg (Nat.not_le.mpr helapsed), Nat.div_eq_of_lt h3, Nat.mul_zero, Nat.zero_div]
  rw [claim_single_eq st u pre m rest now hdec hpre hcl, hpay,
    if_neg (Nat.not_lt.mpr h1), if_neg (Nat.not_lt.mpr h2), if_pos rfl]

/-- Witness for C10: the sample ticket claimed 2 seconds after purchase
reverts with nothing minted. -/
theorem C10_zero_ratio_reverts_witness : claim stSample 7 [1] 2 = none :=
  C10_zero_ratio_reverts stSample 7 [] mSample [] 2 rfl (by simp) rfl
    (by decide) (by decide) (by decide)

/-- Claim C3: a claim batch is all-or-nothing.  If some id in the list
has no unclaimed machine in the holder's ledger, the whole call reverts
with no state change; and after a successful claim of a batch
containing an id (over a duplicate-free ledger), any later claim of a
batch containing that id reverts, so no double mint. -/
theorem C3_batch_atomicity (st : CoreState) (u : Addr) (ids : List Nat) (now tid : Nat) :
    (tid ∈ ids → (∀ m ∈ st.userMachines u, ¬ ticketMatches tid m) →
      claim st u ids now = none)
    ∧ (((st.userMachines u).map Machine.ticketId).Nodup →
      ∀ (st' : CoreState) (r : Nat), claim st u ids now = some (st', r) → tid ∈ ids →
      ∀ (ids2 : List Nat) (now2 : Nat), tid ∈ ids2 → claim st' u ids2 now2 = none) := by
  constructor
  · intro htid hbad
    exact claimCore_eq_none_of_bad st u ids now tid htid hbad
  · intro hnd st' r hsome htid ids2 now2 htid2
    obtain ⟨ms', hloop, _, _, hst'⟩ := claimCore_elim st u ids now st' r hsome
    have hclear : ∀ m' ∈ ms', ¬ ticketMatches tid m' :=
      claimLoop_clears now ids (st.userMachines u) ms' 0 r hnd hloop tid htid
    subst hst'
    exact claimCore_eq_none_of_bad _ u ids2 now2 tid htid2
      (fun m hm => hclear m (by simpa [Function.update] using hm))

/-- Witness for C3: claiming an id absent from the ledger reverts. -/
theorem C3_batch_atomicity_witness : claim stSample 7 [2] 21600 = none :=
  (C3_batch_atomicity stSample 7 [2] 21600 2).1 (by decide) (by decide)

/-- Claim C8: the claimable-now column of the read-only view equals the
payout the claim engine computes for an unclaimed in-window ticket, and
is 0 for a claimed or out-of-window ticket; the view is a pure
function of the state. -/
theorem C8_view_matches_claim_engine (st : CoreState) (u : Addr) (now : Nat) (m : Machine) :
    ((getUserMachines st u now).2.2.2.2.2 = (st.userMachines u).map (claimableNow now))
    ∧ (m.claimed = false → m.purchasedAt ≤ now → now ≤ m.purchasedAt + TOTAL_CLAIM_WINDOW →
      claimOne now m.ticketId [m] = some ([{ m with claimed := true }], claimableNow now m))
    ∧ (¬ (m.claimed = false ∧ m.purchasedAt ≤ now ∧ now ≤ m.purchasedAt + TOTAL_CLAIM_WINDOW) →
      claimableNow now m = 0) := by
  refine ⟨rfl, ?_, ?_⟩
  · intro hcl h1 h2
    have hfirst := claimOne_first_match now m.ticketId [] m [] (by simp) ⟨rfl, hcl⟩
    simp only [List.nil_append] at hfirst
    rw [hfirst, if_neg (Nat.not_lt.mpr h1), if_neg (Nat.not_lt.mpr h2)]
    have hpay : claimPayout now m = claimableNow now m := by
      unfold claimableNow
      rw [if_pos (show m.claimed = false ∧ m.purchasedAt ≤ now
        ∧ now ≤ m.purchasedAt + TOTAL_CLAIM_WINDOW from ⟨hcl, h1, h2⟩)]
      rfl
    rw [hpay]
  · intro hnot
    unfold claimableNow
    rw [if_neg hnot]

/-- Witness for C8: the sample ticket at maturity. -/
theorem C8_view_matches_claim_engine_witness :
    claimOne 21600 1 [mSample] = some ([{ mSample with claimed := true }],
      claimableNow 21600 mSample) :=
  (C8_view_matches_claim_engine stSample 7 21600 mSample).2.1 rfl (by decide) (by decide)

theorem mkMachines_eq_range (t e o : Nat) :
    ∀ n i : Nat, mkMachines i t e o n = (List.range n).map fun j =>
      { ticketId := i + j, purchasedAt := t, expiresAt := e, output := o,
        claimed := false } := by
  intro n
  induction n with
  | zero => intro i; rfl
  | succ k ih =>
    intro i
    rw [List.range_succ_eq_map, List.map_cons, List.map_map]
    show ({ ticketId := i, purchasedAt := t, expiresAt := e, output := o,
              claimed := false } : Machine) :: mkMachines (i + 1) t e o k = _
    rw [ih (i + 1)]
    congr 1
    simp
    intro a _
    omega

theorem mkMachines_countP_active (now e o : Nat) (n i : Nat) :
    (mkMachines i now e o n).countP (isActiveAt now) = n := by
  rw [mkMachines_eq_range]
  have hall : ∀ a ∈ (List.range n).map fun j =>
      ({ ticketId := i + j, purchasedAt := now, expiresAt := e, output := o,
          claimed := false } : Machine), isActiveAt now a = true := by
    intro a ha
    obtain ⟨j, _, rfl⟩ := List.mem_map.mp ha
    simp [isActiveAt]
  rw [List.countP_eq_length.mpr hall, List.length_map, List.length_range]

theorem issueEffects_active_self (st : CoreState) (u : Addr) (c now : Nat) :
    getActiveTicketCount (issueEffects st u c now) u now
      = getActiveTicketCount st u now + c := by
  unfold getActiveTicketCount issueEffects
  simp only [Function.update_same]
  rw [List.countP_append, mkMachines_countP_active]

theorem issueEffects_active_other (st : CoreState) (u h : Addr) (c now t : Nat)
    (hne : h ≠ u) :
    getActiveTicketCount (issueEffects st u c now) h t = getActiveTicketCount st h t := by
  unfold getActiveTicketCount issueEffects
  simp only [Function.update_noteq hne]

/-- Claim C4: every successful issuance (buyTickets, buyTicketsFor,
buyTicketsWithAuthorization) checked the beneficiary's fresh active
count plus the batch against MAX_TICKETS_PER_ADDRESS, leaves the
beneficiary at or below the cap, and leaves every other holder's
active count unchanged, so the cap holds for every holder afterwards. -/
theorem C4_active_cap (st : CoreState) (u : Addr) (c now : Nat) (st' : CoreState)
    (fromAddr : Addr) (value : Nat)
    (hsucc : buyTickets st u c now = some st' ∨ buyTicketsFor st u c now = some st'
      ∨ buyTicketsWithAuthorization st u c fromAddr value now = some st') :
    getActiveTicketCount st u now + c ≤ MAX_TICKETS_PER_ADDRESS
    ∧ getActiveTicketCount st' u now = getActiveTicketCount st u now + c
    ∧ getActiveTicketCount st' u now ≤ MAX_TICKETS_PER_ADDRESS
    ∧ (∀ h : Addr, h ≠ u → ∀ t : Nat,
        getActiveTicketCount st' h t = getActiveTicketCount st h t)
    ∧ ((∀ h : Addr, getActiveTicketCount st h now ≤ MAX_TICKETS_PER_ADDRESS) →
        ∀ h : Addr, getActiveTicketCount st' h now ≤ MAX_TICKETS_PER_ADDRESS) := by
  have hce : getActiveTicketCount st u now + c ≤ MAX_TICKETS_PER_ADDRESS
      ∧ st' = issueEffects st u c now := by
    rcases hsucc with h | h | h
    · have he := buyTickets_elim st u c now st' h
      exact ⟨he.2.2.1, he.2.2.2⟩
    · have he := buyTicketsFor_elim st u c now st' h
      exact ⟨he.2.2.2.1, he.2.2.2.2⟩
    · have he := buyTicketsWithAuthorization_elim st u c fromAddr value now st' h
      exact ⟨he.2.2.2.2.1, he.2.2.2.2.2.2⟩
  obtain ⟨hcap, hst'⟩ := hce
  subst hst'
  refine ⟨hcap, issueEffects_active_self st u c now, ?_, ?_, ?_⟩
  · rw [issueEffects_active_self st u c now]; exact hcap
  · intro h hne t; exact issueEffects_active_other st u h c now t hne
  · intro hall h
    by_cases hh : h = u
    · subst hh
      rw [issueEffects_active_self st h c now]
      exact hcap
    · rw [issueEffects_active_other st u h c now now hh]
      exact hall h

/-- Witness for C4 at a concrete issuance. -/
theorem C4_active_cap_witness :
    getActiveTicketCount (issueEffects initialState 7 3 100) 7 100
      ≤ MAX_TICKETS_PER_ADDRESS :=
  (C4_active_cap initialState 7 3 100 (issueEffects initialState 7 3 100) 0 0
    (Or.inl rfl)).2.2.1

/-- Claim C7: a successful issuance of count tickets appends exactly
count tickets to the beneficiary's ledger, all sharing the one stage
output computed from the pre-state, each with purchased_at = now and
claimed = false, with consecutive ids starting at next_ticket_id, and
advances tickets_sold and next_ticket_id by count, leaving totalMinted
and every other ledger untouched. -/
theorem C7_issuance_effects (st : CoreState) (u : Addr) (c now : Nat) (st' : CoreState)
    (fromAddr : Addr) (value : Nat)
    (hsucc : buyTickets st u c now = some st' ∨ buyTicketsFor st u c now = some st'
      ∨ buyTicketsWithAuthorization st u c fromAddr value now = some st') :
    st'.userMachines u = st.userMachines u ++ (List.range c).map (fun j =>
      { ticketId := st.nextTicketId + j
        purchasedAt := now
        expiresAt := now + MACHINE_LIFETIME
        output := calculateStageOutput (getCurrentStage st.totalMinted)
        claimed := false })
    ∧ st'.ticketsSold = st.ticketsSold + c
    ∧ st'.nextTicketId = st.nextTicketId + c
    ∧ st'.totalMinted = st.totalMinted
    ∧ (∀ h : Addr, h ≠ u → st'.userMachines h = st.userMachines h) := by
  have hst' : st' = issueEffects st u c now := by
    rcases hsucc with h | h | h
    · exact (buyTickets_elim st u c now st' h).2.2.2
    · exact (buyTicketsFor_elim st u c now st' h).2.2.2.2
    · exact (buyTicketsWithAuthorization_elim st u c fromAddr value now st' h).2.2.2.2.2.2
  subst hst'
  refine ⟨?_, rfl, rfl, rfl, ?_⟩
  · show Function.update st.userMachines u
      (st.userMachines u ++ mkMachines st.nextTicketId now (now + MACHINE_LIFETIME)
        (calculateStageOutput (getCurrentStage st.totalMinted)) c) u = _
    rw [Function.update_same, mkMachines_eq_range]
  · intro h hne
    show Function.update st.userMachines u _ h = _
    rw [Function.update_noteq hne]

/-- Witness for C7 at a concrete issuance. -/
theorem C7_issuance_effects_witness :
    (issueEffects initialState 7 3 100).ticketsSold = initialState.ticketsSold + 3 :=
  (C7_issuance_effects initialState 7 3 100 (issueEffects initialState 7 3 100) 0 0
    (Or.inl rfl)).2.1

/-- Claim C9: updateEmissionCap succeeds exactly when the new cap is
between totalMinted and the hard limit, on success changes only the
emissionCap slot, and emissionCap is read by no issuance or claim
path: changing only emissionCap changes only the emissionCap of any
purchase or claim outcome. -/
theorem C9_emission_cap_frame :
    (∀ (st : CoreState) (newCap : Nat),
      (∃ st', updateEmissionCap st newCap = some st') ↔
        (st.totalMinted ≤ newCap ∧ newCap ≤ EMISSION_HARD_LIMIT))
    ∧ (∀ (st : CoreState) (newCap : Nat) (st' : CoreState),
      updateEmissionCap st newCap = some st' → st' = { st with emissionCap := newCap })
    ∧ (∀ (st : CoreState) (cap u c n : Nat),
      buyTickets { st with emissionCap := cap } u c n
        = Option.map (fun s => { s with emissionCap := cap }) (buyTickets st u c n))
    ∧ (∀ (st : CoreState) (cap u c n : Nat),
      buyTicketsFor { st with emissionCap := cap } u c n
        = Option.map (fun s => { s with emissionCap := cap }) (buyTicketsFor st u c n))
    ∧ (∀ (st : CoreState) (cap u c : Nat) (f : Addr) (v n : Nat),
      buyTicketsWithAuthorization { st with emissionCap := cap } u c f v n
        = Option.map (fun s => { s with emissionCap := cap })
            (buyTicketsWithAuthorization st u c f v n))
    ∧ (∀ (st : CoreState) (cap u : Nat) (ids : List Nat) (n : Nat),
      claim { st with emissionCap := cap } u ids n
        = Option.map (fun p => ({ p.1 with emissionCap := cap }, p.2)) (claim st u ids n))
    ∧ (∀ (st : CoreState) (cap u : Nat) (ids : List Nat) (n : Nat),
      claimFor { st with emissionCap := cap } u ids n
        = Option.map (fun p => ({ p.1 with emissionCap := cap }, p.2))
            (claimFor st u ids n)) := by
  have hclaim : ∀ (st : CoreState) (cap u : Nat) (ids : List Nat) (n : Nat),
      claim { st with emissionCap := cap } u ids n
        = Option.map (fun p => ({ p.1 with emissionCap := cap }, p.2)) (claim st u ids n) := by
    intro st cap u ids n
    obtain ⟨a, b, f, d, e⟩ := st
    unfold claim claimCore
    cases hloop : claimLoop n ids (f u) 0 with
    | none => simp [hloop]
    | some pr =>
      obtain ⟨ms', r⟩ := pr
      simp only [hloop]
      by_cases hz : r = 0
      · simp [hz]
      · by_cases hp : MINING_POOL < a + r
        · simp [hz, hp]
        · simp [hz, hp]
  refine ⟨?_, ?_, ?_, ?_, ?_, hclaim, ?_⟩
  · intro st newCap
    constructor
    · rintro ⟨st', hst'⟩
      exact ⟨(updateEmissionCap_elim st newCap st' hst').1,
        (updateEmissionCap_elim st newCap st' hst').2.1⟩
    · rintro ⟨h1, h2⟩
      refine ⟨{ st with emissionCap := newCap }, ?_⟩
      unfold updateEmissionCap
      rw [if_neg (Nat.not_lt.mpr h1), if_neg (Nat.not_lt.mpr h2)]
  · intro st newCap st' h
    exact (updateEmissionCap_elim st newCap st' h).2.2
  · intro st cap u c n
    obtain ⟨a, b, f, d, e⟩ := st
    unfold buyTickets getActiveTicketCount issueEffects
    by_cases h1 : c = 0
    · simp [h1]
    · by_cases h2 : MINING_POOL ≤ a
      · simp [h1, h2]
      · by_cases h3 : MAX_TICKETS_PER_ADDRESS < (f u).countP (isActiveAt n) + c
        · simp [h1, h2, h3]
        · simp [h1, h2, h3]
  · intro st cap u c n
    obtain ⟨a, b, f, d, e⟩ := st
    unfold buyTicketsFor getActiveTicketCount issueEffects
    by_cases h0 : u = 0
    · simp [h0]
    · by_cases h1 : c = 0
      · simp [h0, h1]
      · by_cases h2 : MINING_POOL ≤ a
        · simp [h0, h1, h2]
        · by_cases h3 : MAX_TICKETS_PER_ADDRESS < (f u).countP (isActiveAt n) + c
          · simp [h0, h1, h2, h3]
          · simp [h0, h1, h2, h3]
  · intro st cap u c f₀ v n
    obtain ⟨a, b, f, d, e⟩ := st
    unfold buyTicketsWithAuthorization getActiveTicketCount issueEffects
    by_cases h0 : u = 0
    · simp [h0]
    · by_cases hf : u ≠ f₀
      · simp [h0, hf]
      · by_cases h1 : c = 0
        · simp [h0, hf, h1]
        · by_cases h2 : MINING_POOL ≤ a
          · simp [h0, hf, h1, h2]
          · by_cases h3 : MAX_TICKETS_PER_ADDRESS < (f u).countP (isActiveAt n) + c
            · simp [h0, hf, h1, h2, h3]
            · by_cases h4 : v ≠ TICKET_PRICE * c
              · simp [h0, hf, h1, h2, h3, h4]
              · simp [h0, hf, h1, h2, h3, h4]
  · intro st cap u ids n
    unfold claimFor
    by_cases h0 : u = 0
    · simp [h0]
    · simp only [if_neg h0]
      exact hclaim st cap u ids n

/-- Witness for C9: raising the cap of the deployed state to
MINING_POOL succeeds and changes only the emissionCap slot. -/
theorem C9_emission_cap_frame_witness :
    ∃ st', updateEmissionCap initialState MINING_POOL = some st'
      ∧ st' = { initialState with emissionCap := MINING_POOL } :=
  ⟨{ initialState with emissionCap := MINING_POOL }, rfl,
    C9_emission_cap_frame.2.1 initialState MINING_POOL _ rfl⟩

/-- Witness for C6 at concrete inputs. -/
theorem C6_emission_schedule_witness :
    getCurrentStage (5 * STAGE_SIZE) = 5
    ∧ calculateStageOutput 3 = calculateStageOutput 2 / 2
    ∧ calculateStageOutput 7 = 0 :=
  ⟨C6_emission_schedule.2.1 (5 * STAGE_SIZE) (Nat.le_refl _),
   C6_emission_schedule.2.2.2.1 2 (by decide),
   C6_emission_schedule.2.2.2.2 7 (by decide)⟩

end CoreMining
